import Mathlib

/-!
# Shallow embedding of the cf-utils CloudFormation stack-lifecycle orchestrator

This file models the `cloudFormation` module of the `dbslicer/cf-utils`
repository (the async implementation: `upsertStack`, `createStack`,
`updateStack`, `applyChangeSet`, `createChangeSet`, `executeChangeSet`,
`deleteChangeSet`, `deleteStack`, `pollStack`, `pollChangeSet`).

The AWS provider, the filesystem, the S3 collaborator and the interactive
prompt are modelled by an explicit environment `Env` holding a queue of
responses for each kind of request, mirroring how the repository's own test
suite mocks each SDK command with a queue of scripted replies.  Every request
the code issues is appended to `Env.log`, so temporal claims ("X happens
before Y", "no direct mutate is ever issued") become statements about the log.
JavaScript promise rejections are modelled by `Except String` carrying the
error message; the unbounded poll loops take a `fuel` argument (the original
polls forever; running out of fuel yields the distinguished error
`"__fuel_exhausted"` which no claim depends on).
-/

namespace CfUtils

/-- Does the pattern (first list) occur at the head of the input? -/
def startsWithList : List Char → List Char → Bool
  | [], _ => true
  | _ :: _, [] => false
  | p :: ps, c :: cs => p = c && startsWithList ps cs

/-- Does the pattern occur anywhere in the input? -/
def containsList : List Char → List Char → Bool
  | pat, [] => startsWithList pat []
  | pat, c :: cs => startsWithList pat (c :: cs) || containsList pat cs

/-- JS `String.prototype.includes` / `indexOf(...) >= 0`: substring test. -/
def containsSubstr (s pat : String) : Bool :=
  containsList pat.data s.data

/-- One CloudFormation stack output (`{OutputKey, OutputValue}`). -/
structure Output where
  OutputKey : String
  OutputValue : String
  deriving DecidableEq, Repr

/-- One entry of `data.Stacks` as returned by `DescribeStacksCommand`.
`Outputs = none` models a JS object with no `Outputs` field. -/
structure StackInfo where
  StackName : String
  StackStatus : String
  Outputs : Option (List Output) := none
  deriving DecidableEq, Repr

/-- The result object of `DescribeStacksCommand`. -/
structure DescribeOut where
  Stacks : List StackInfo
  deriving DecidableEq, Repr

/-- The result object of `DescribeChangeSetCommand`.  `StatusReason = none`
models a reply with no `StatusReason` field. -/
structure ChangeSet where
  ChangeSetName : String
  StackName : String
  Status : String
  StatusReason : Option String := none
  deriving DecidableEq, Repr

/-- The AWS request parameter object built by `upsertStack` and passed to
`CreateStackCommand` / `UpdateStackCommand` / `CreateChangeSetCommand`. -/
structure StackParams where
  StackName : String
  Capabilities : List String := []
  Parameters : List (String × String) := []
  TemplateBody : Option String := none
  TemplateURL : Option String := none
  DisableRollback : Option Bool := none
  deriving DecidableEq, Repr

/-- `CreateChangeSetCommand` input: the stack params extended with
`ChangeSetName` and (for the non-review path) `ChangeSetType`. -/
structure CreateCSParams where
  base : StackParams
  ChangeSetName : String
  ChangeSetType : Option String := none
  deriving DecidableEq, Repr

/-- Every outward request the module can issue, in the order issued. -/
inductive Command where
  | describeStacks (stackName : String)
  | createStack (params : StackParams)
  | updateStack (params : StackParams)
  | createChangeSet (params : CreateCSParams)
  | executeChangeSet (stackName changeSetName : String)
  | deleteChangeSet (stackName changeSetName : String)
  | describeChangeSet (stackName changeSetName : String)
  | deleteStack (stackName : String)
  | emptyBucket (bucket : String)
  | putS3Object (bucket key : String)
  | prompt
  deriving DecidableEq, Repr

/-- The world the module runs against: a scripted queue of replies per
request kind (as the repository's tests script each mocked SDK command), a
read-only filesystem, the clock, the prompt answers, and the accumulated
log of issued requests. -/
structure Env where
  describeStacksQ : List (Except String DescribeOut) := []
  describeChangeSetQ : List (Except String ChangeSet) := []
  createStackQ : List (Except String Unit) := []
  updateStackQ : List (Except String Unit) := []
  createChangeSetQ : List (Except String Unit) := []
  executeChangeSetQ : List (Except String Unit) := []
  deleteChangeSetQ : List (Except String Unit) := []
  deleteStackQ : List (Except String Unit) := []
  putS3ObjectQ : List (Except String Unit) := []
  promptQ : List Bool := []
  files : List (String × String) := []
  nowSec : Nat := 0
  log : List Command := []
  warned : List (DescribeOut ⊕ ChangeSet) := []

deriving instance DecidableEq for Except

deriving instance DecidableEq for Env

/-- Error produced when a scripted reply queue runs dry. -/
def noMockMsg : String := "__no_mock_response"

/-- Append one issued request to the log. -/
def logCmd (c : Command) (env : Env) : Env :=
  { env with log := env.log ++ [c] }

def sendDescribeStacks (name : String) (env : Env) :
    Except String DescribeOut × Env :=
  let env := logCmd (.describeStacks name) env
  match env.describeStacksQ with
  | [] => (.error noMockMsg, env)
  | r :: rest => (r, { env with describeStacksQ := rest })

def sendDescribeChangeSet (stackName changeSetName : String) (env : Env) :
    Except String ChangeSet × Env :=
  let env := logCmd (.describeChangeSet stackName changeSetName) env
  match env.describeChangeSetQ with
  | [] => (.error noMockMsg, env)
  | r :: rest => (r, { env with describeChangeSetQ := rest })

def sendCreateStack (params : StackParams) (env : Env) :
    Except String Unit × Env :=
  let env := logCmd (.createStack params) env
  match env.createStackQ with
  | [] => (.error noMockMsg, env)
  | r :: rest => (r, { env with createStackQ := rest })

def sendUpdateStack (params : StackParams) (env : Env) :
    Except String Unit × Env :=
  let env := logCmd (.updateStack params) env
  match env.updateStackQ with
  | [] => (.error noMockMsg, env)
  | r :: rest => (r, { env with updateStackQ := rest })

def sendCreateChangeSet (params : CreateCSParams) (env : Env) :
    Except String Unit × Env :=
  let env := logCmd (.createChangeSet params) env
  match env.createChangeSetQ with
  | [] => (.error noMockMsg, env)
  | r :: rest => (r, { env with createChangeSetQ := rest })

def sendExecuteChangeSet (stackName changeSetName : String) (env : Env) :
    Except String Unit × Env :=
  let env := logCmd (.executeChangeSet stackName changeSetName) env
  match env.executeChangeSetQ with
  | [] => (.error noMockMsg, env)
  | r :: rest => (r, { env with executeChangeSetQ := rest })

def sendDeleteChangeSet (stackName changeSetName : String) (env : Env) :
    Except String Unit × Env :=
  let env := logCmd (.deleteChangeSet stackName changeSetName) env
  match env.deleteChangeSetQ with
  | [] => (.error noMockMsg, env)
  | r :: rest => (r, { env with deleteChangeSetQ := rest })

def sendDeleteStack (stackName : String) (env : Env) :
    Except String Unit × Env :=
  let env := logCmd (.deleteStack stackName) env
  match env.deleteStackQ with
  | [] => (.error noMockMsg, env)
  | r :: rest => (r, { env with deleteStackQ := rest })

def sendPutS3Object (bucket key : String) (env : Env) :
    Except String Unit × Env :=
  let env := logCmd (.putS3Object bucket key) env
  match env.putS3ObjectQ with
  | [] => (.error noMockMsg, env)
  | r :: rest => (r, { env with putS3ObjectQ := rest })

/-- `inquirer.prompt` resolving with `{ performUpdate: bool }`. -/
def sendPrompt (env : Env) : Except String Bool × Env :=
  let env := logCmd .prompt env
  match env.promptQ with
  | [] => (.error noMockMsg, env)
  | r :: rest => (.ok r, { env with promptQ := rest })

/-- `fs` lookup: `some content` when the file exists. -/
def readFile (env : Env) (path : String) : Option String :=
  (env.files.find? (fun f => f.1 = path)).map (·.2)

/-- Poll-loop fuel exhaustion marker (the original code polls forever). -/
def fuelMsg : String := "__fuel_exhausted"

/-- `pollStack(params)`: describe the stack; `does not exist` resolves with
an absent value; `CREATE_COMPLETE`/`UPDATE_COMPLETE` resolve with the full
describe payload; `ROLLBACK_COMPLETE`, `CREATE_FAILED`, `UPDATE_FAILED`,
`DELETE_FAILED`, `UPDATE_ROLLBACK_COMPLETE` record the full stack detail
(`logger.warn({StackDetails})`) and throw `Stack operation failed`;
anything else sleeps and polls again. -/
def pollStack : Nat → String → Env → Except String (Option DescribeOut) × Env
  | 0, _, env => (.error fuelMsg, env)
  | fuel + 1, stackName, env =>
    match sendDescribeStacks stackName env with
    | (.error msg, env) =>
      if containsSubstr msg "does not exist" then (.ok none, env)
      else (.error msg, env)
    | (.ok data, env) =>
      match data.Stacks.head? with
      | none => (.error "TypeError: Cannot read properties of undefined", env)
      | some stack =>
        if stack.StackStatus = "CREATE_COMPLETE"
            ∨ stack.StackStatus = "UPDATE_COMPLETE" then
          (.ok (some data), env)
        else if stack.StackStatus = "ROLLBACK_COMPLETE"
            ∨ stack.StackStatus = "CREATE_FAILED"
            ∨ stack.StackStatus = "UPDATE_FAILED"
            ∨ stack.StackStatus = "DELETE_FAILED"
            ∨ stack.StackStatus = "UPDATE_ROLLBACK_COMPLETE" then
          (.error "Stack operation failed",
            { env with warned := env.warned ++ [.inl data] })
        else
          pollStack fuel stackName env

/-- `pollChangeSet(params)`: describe the change set; `does not exist`
resolves with an absent value; `CREATE_COMPLETE` (falling through),
`UPDATE_COMPLETE` and `DELETE_COMPLETE` resolve with the change set;
`FAILED` with a no-changes reason resolves with an absent value, `FAILED`
otherwise records the change-set detail (`logger.warn({ChangeSet})`) and
throws `Changeset creation failed`; anything else polls again. -/
def pollChangeSet : Nat → String → String → Env →
    Except String (Option ChangeSet) × Env
  | 0, _, _, env => (.error fuelMsg, env)
  | fuel + 1, stackName, changeSetName, env =>
    match sendDescribeChangeSet stackName changeSetName env with
    | (.error msg, env) =>
      if containsSubstr msg "does not exist" then (.ok none, env)
      else (.error msg, env)
    | (.ok cs, env) =>
      if cs.Status = "CREATE_COMPLETE" ∨ cs.Status = "UPDATE_COMPLETE"
          ∨ cs.Status = "DELETE_COMPLETE" then
        (.ok (some cs), env)
      else if cs.Status = "FAILED" then
        match cs.StatusReason with
        | none => (.error "TypeError: Cannot read properties of undefined", env)
        | some reason =>
          if containsSubstr reason "No updates are to be performed"
              ∨ containsSubstr reason "didn't contain changes" then
            (.ok none, env)
          else
            (.error "Changeset creation failed",
              { env with warned := env.warned ++ [.inr cs] })
      else
        pollChangeSet fuel stackName changeSetName env

/-- `createStack(params)`: force `DisableRollback = true`, submit
`CreateStackCommand`, then poll the stack. -/
def createStack (fuel : Nat) (params : StackParams) (env : Env) :
    Except String (Option DescribeOut) × Env :=
  match sendCreateStack { params with DisableRollback := some true } env with
  | (.error msg, env) => (.error msg, env)
  | (.ok _, env) => pollStack fuel params.StackName env

/-- `updateStack(params)`: submit `UpdateStackCommand`; an error containing
`No updates are to be performed` is swallowed; any other error propagates;
then poll the stack. -/
def updateStack (fuel : Nat) (params : StackParams) (env : Env) :
    Except String (Option DescribeOut) × Env :=
  match sendUpdateStack params env with
  | (.error msg, env) =>
    if containsSubstr msg "No updates are to be performed" then
      pollStack fuel params.StackName env
    else (.error msg, env)
  | (.ok _, env) => pollStack fuel params.StackName env

/-- `generateChangeSetName()`: `'cf-utils-cloudformation-upsert-stack-' +
(Date.now() / 1000 | 0)`. -/
def generateChangeSetName (nowSec : Nat) : String :=
  "cf-utils-cloudformation-upsert-stack-" ++ toString nowSec

/-- `createChangeSet(params)`: submit `CreateChangeSetCommand`, then poll the
change set to a terminal status. -/
def createChangeSet (fuel : Nat) (params : CreateCSParams) (env : Env) :
    Except String (Option ChangeSet) × Env :=
  match sendCreateChangeSet params env with
  | (.error msg, env) => (.error msg, env)
  | (.ok _, env) => pollChangeSet fuel params.base.StackName params.ChangeSetName env

/-- `executeChangeSet(params)`: submit `ExecuteChangeSetCommand`, then poll
the underlying stack. -/
def executeChangeSet (fuel : Nat) (stackName changeSetName : String) (env : Env) :
    Except String (Option DescribeOut) × Env :=
  match sendExecuteChangeSet stackName changeSetName env with
  | (.error msg, env) => (.error msg, env)
  | (.ok _, env) => pollStack fuel stackName env

/-- `deleteChangeSet(params)`: submit `DeleteChangeSetCommand`, then poll the
change set. -/
def deleteChangeSet (fuel : Nat) (stackName changeSetName : String) (env : Env) :
    Except String (Option ChangeSet) × Env :=
  match sendDeleteChangeSet stackName changeSetName env with
  | (.error msg, env) => (.error msg, env)
  | (.ok _, env) => pollChangeSet fuel stackName changeSetName env

/-- `applyChangeSet(params)`: create the change set; if the poll produced a
change set, execute it (taking `StackName`/`ChangeSetName` from the describe
payload); an absent change set (empty-diff outcome) resolves with an absent
value without executing or deleting anything. -/
def applyChangeSet (fuel : Nat) (params : CreateCSParams) (env : Env) :
    Except String (Option DescribeOut) × Env :=
  match createChangeSet fuel params env with
  | (.error msg, env) => (.error msg, env)
  | (.ok none, env) => (.ok none, env)
  | (.ok (some cs), env) => executeChangeSet fuel cs.StackName cs.ChangeSetName env

/-- `describeStack(name)`: one `DescribeStacksCommand`, returning
`data.Stacks[0]`. -/
def describeStack (name : String) (env : Env) :
    Except String (Option StackInfo) × Env :=
  match sendDescribeStacks name env with
  | (.error msg, env) => (.error msg, env)
  | (.ok data, env) => (.ok data.Stacks.head?, env)

/-- `extractOutput(stack)`: fold `stack.Outputs` into a key/value map
(modelled as the association list in output order). -/
def extractOutput (outputs : List Output) : List (String × String) :=
  outputs.map (fun o => (o.OutputKey, o.OutputValue))

/-- JS `/.*Bucket$/.test(key)`: the key ends with the literal `Bucket`
(case-sensitive suffix match). -/
def bucketKeyTest (key : String) : Bool :=
  startsWithList "Bucket".data.reverse key.data.reverse

/-- The bucket-emptying loop of `deleteStack`: for each output whose key
matches `/.*Bucket$/`, invoke the S3 bucket emptier on the output value.
The emptier is an external collaborator; here it is recorded in the log. -/
def emptyBuckets (outputs : List Output) (env : Env) : Env :=
  outputs.foldl
    (fun e o =>
      if bucketKeyTest o.OutputKey then logCmd (.emptyBucket o.OutputValue) e
      else e)
    env

/-- `deleteStack(name)`: describe the stack; a `does not exist` error
resolves successfully with an absent value (idempotent delete) and any other
describe error propagates; otherwise empty every `*Bucket` output's bucket,
submit `DeleteStackCommand`, and poll the stack (where `does not exist` is
the success condition). -/
def deleteStack (fuel : Nat) (name : String) (env : Env) :
    Except String (Option DescribeOut) × Env :=
  match sendDescribeStacks name env with
  | (.error msg, env) =>
    if containsSubstr msg "does not exist" then (.ok none, env)
    else (.error msg, env)
  | (.ok data, env) =>
    match data.Stacks.head? with
    | none => (.error "TypeError: Cannot read properties of undefined", env)
    | some stack =>
      let env := emptyBuckets (stack.Outputs.getD []) env
      match sendDeleteStack name env with
      | (.error msg, env) => (.error msg, env)
      | (.ok _, env) => pollStack fuel name env

/-! ## The serverless transform marker

`upsertStack` decides between direct mutation and the change-set path by
testing the template body against `/Transform\"?\s*:\s*\"?AWS::Serverless/`.
The regex is modelled character-for-character: the literal `Transform`, an
optional double quote, whitespace, a colon, whitespace, an optional double
quote, then the literal `AWS::Serverless`, anywhere in the string. -/

/-- JS `\s` whitespace class (ASCII part). -/
def isJsWhitespace (c : Char) : Bool :=
  c = ' ' ∨ c = '\t' ∨ c = '\n' ∨ c = '\r' ∨ c = '\x0b' ∨ c = '\x0c'

/-- Drop a literal prefix; `none` when the input does not start with it. -/
def dropLit : List Char → List Char → Option (List Char)
  | [], cs => some cs
  | _ :: _, [] => none
  | p :: ps, c :: cs => if p = c then dropLit ps cs else none

/-- Match `\s*:\s*\"?AWS::Serverless` at the head of the input. -/
def markerTail (cs : List Char) : Bool :=
  match (cs.dropWhile isJsWhitespace) with
  | ':' :: cs =>
    let cs := cs.dropWhile isJsWhitespace
    ((dropLit "AWS::Serverless".data cs).isSome
      || (match cs with
          | '"' :: cs => (dropLit "AWS::Serverless".data cs).isSome
          | _ => false))
  | _ => false

/-- Match the whole marker at the head of the input. -/
def markerAt (cs : List Char) : Bool :=
  match dropLit "Transform".data cs with
  | none => false
  | some rest =>
    (markerTail rest
      || (match rest with
          | '"' :: rest => markerTail rest
          | _ => false))

/-- Search the marker at every position (JS `RegExp.prototype.test`). -/
def scanMarker : List Char → Bool
  | [] => false
  | c :: cs => markerAt (c :: cs) || scanMarker cs

/-- `/Transform\"?\s*:\s*\"?AWS::Serverless/.test(content)`. -/
def transformTest (content : String) : Bool :=
  scanMarker content.data

/-! ## upsertStack -/

/-- The options object accepted by `upsertStack` (each field optional,
`hasOwnProperty('containsTransforms')` modelled by `Option.isSome`). -/
structure UpsertOptions where
  review : Option Bool := none
  s3Bucket : Option String := none
  s3Prefix : Option String := none
  containsTransforms : Option Bool := none
  deriving DecidableEq, Repr

/-- The `options` argument: a boolean (legacy `review` flag), an options
object, or omitted. -/
inductive UpsertArg where
  | boolArg (b : Bool)
  | objArg (o : UpsertOptions)
  | noneArg
  deriving DecidableEq, Repr

/-- The backwards-compatibility normalisation at the top of `upsertStack`. -/
def normalizeOptions : UpsertArg → UpsertOptions
  | .boolArg b => { review := some b }
  | .objArg o => o
  | .noneArg => {}

/-- The `executeUpdate` closure of `upsertStack`: change-set update when the
template contains transforms, direct update otherwise. -/
def executeUpdateFn (fuel : Nat) (params : StackParams)
    (containsTransforms : Bool) (env : Env) :
    Except String (Option DescribeOut) × Env :=
  if containsTransforms then
    applyChangeSet fuel
      { base := { params with DisableRollback := none },
        ChangeSetName := generateChangeSetName env.nowSec,
        ChangeSetType := some "UPDATE" } env
  else
    updateStack fuel params env

/-- Lines 249-266 of the module: the request parameter object
(`StackName`, the three capabilities, `Parameters`, and `TemplateURL` when
the script is an `https://s3` URL, else `TemplateBody` from the local file,
failing fast with `<script> does not exist!` when the file is absent). -/
def buildUpsertParams (env : Env) (name script : String)
    (parameters : List (String × String)) : Except String StackParams :=
  if script.take 10 = "https://s3" then
    .ok { StackName := name,
          Capabilities :=
            ["CAPABILITY_IAM", "CAPABILITY_NAMED_IAM", "CAPABILITY_AUTO_EXPAND"],
          Parameters := parameters,
          TemplateURL := some script }
  else
    match readFile env script with
    | none => .error (script ++ " does not exist!")
    | some content =>
      .ok { StackName := name,
            Capabilities :=
              ["CAPABILITY_IAM", "CAPABILITY_NAMED_IAM", "CAPABILITY_AUTO_EXPAND"],
            Parameters := parameters,
            TemplateBody := some content }

/-- The body of `upsertStack` after the `s3Bucket` branch: build the request
params, probe the stack with `DescribeStacksCommand`, then branch: describe
error → create path (change set of type `CREATE` when transforms, else
direct create); stack exists → review gate or straight to `executeUpdate`. -/
def upsertStackGo (fuel : Nat) (name script : String)
    (parameters : List (String × String)) (review : Bool)
    (containsTransforms : Bool) (env : Env) :
    Except String (Option DescribeOut) × Env :=
  match buildUpsertParams env name script parameters with
  | .error msg => (.error msg, env)
  | .ok params =>
    match sendDescribeStacks name env with
    | (.error _, env) =>
      if containsTransforms then
        applyChangeSet fuel
          { base := { params with DisableRollback := none },
            ChangeSetName := generateChangeSetName env.nowSec,
            ChangeSetType := some "CREATE" } env
      else
        createStack fuel params env
    | (.ok _, env) =>
      if review then
        let csName := "cf-utils-" ++ params.StackName ++ "-preview"
        match createChangeSet fuel { base := params, ChangeSetName := csName } env with
        | (.error msg, env) => (.error msg, env)
        | (.ok none, env) => pollStack fuel name env
        | (.ok (some _), env) =>
          match sendPrompt env with
          | (.error msg, env) => (.error msg, env)
          | (.ok performUpdate, env) =>
            match deleteChangeSet fuel params.StackName csName env with
            | (.error msg, env) => (.error msg, env)
            | (.ok _, env) =>
              if performUpdate then
                executeUpdateFn fuel params containsTransforms env
              else
                (.error "Reviewer rejected stack update", env)
      else
        executeUpdateFn fuel params containsTransforms env

/-- Lines 231-233 of the module: `containsTransforms` is the explicit
override when the options own that property, else the transform-marker test
on the script's content (`fs.readFileSync` throws when the file is
missing). -/
def computeContainsTransforms (env : Env) (script : String)
    (options : UpsertOptions) : Except String Bool :=
  match options.containsTransforms with
  | some b => .ok b
  | none =>
    match readFile env script with
    | some content => .ok (transformTest content)
    | none => .error ("ENOENT: no such file or directory, open " ++ script)

/-- `upsertStack(name, script, parameters, options)`: normalise the options,
derive `containsTransforms` (explicit override, else the transform-marker
test on the script's content — `fs.readFileSync` throws when the file is
missing); when `s3Bucket` is set, upload the script and re-enter with the S3
URL, `review === true` and `containsTransforms` pinned (the JS recursion,
unfolded once since the recursive call carries no `s3Bucket`); otherwise run
the main body. -/
def upsertStack (fuel : Nat) (name script : String)
    (parameters : List (String × String)) (optionsArg : UpsertArg)
    (env : Env) : Except String (Option DescribeOut) × Env :=
  let options := normalizeOptions optionsArg
  match computeContainsTransforms env script options with
  | .error msg => (.error msg, env)
  | .ok containsTransforms =>
    match options.s3Bucket with
    | some bucket =>
      let keyPrefix := options.s3Prefix.getD "undefined"
      match sendPutS3Object bucket (keyPrefix ++ script) env with
      | (.error msg, env) => (.error msg, env)
      | (.ok _, env) =>
        upsertStackGo fuel name
          ("https://s3.amazonaws.com/" ++ bucket ++ "/" ++ keyPrefix ++ script)
          parameters (options.review = some true) containsTransforms env
    | none =>
      upsertStackGo fuel name script parameters (options.review.getD false)
        containsTransforms env

/-! ## Log-extension machinery

`logExtends P env env'` says the run from `env` to `env'` only appended
requests satisfying `P` to the log.  Temporal invariants ("this phase never
issues a direct mutate", "polling only issues describes") are instances. -/

def logExtends (P : Command → Prop) (env env' : Env) : Prop :=
  ∃ tail, env'.log = env.log ++ tail ∧ ∀ c ∈ tail, P c

theorem logExtends_self {P : Command → Prop} {env : Env} :
    logExtends P env env :=
  ⟨[], by simp, by simp⟩

theorem logExtends_trans {P : Command → Prop} {e1 e2 e3 : Env}
    (h12 : logExtends P e1 e2) (h23 : logExtends P e2 e3) :
    logExtends P e1 e3 := by
  obtain ⟨t1, ht1, hp1⟩ := h12
  obtain ⟨t2, ht2, hp2⟩ := h23
  refine ⟨t1 ++ t2, by simp [ht2, ht1], ?_⟩
  intro c hc
  rcases List.mem_append.mp hc with h | h
  exacts [hp1 c h, hp2 c h]

theorem logExtends_mem {P : Command → Prop} {env env' : Env}
    (h : logExtends P env env') {c : Command} (hc : c ∈ env.log) :
    c ∈ env'.log := by
  obtain ⟨t, ht, _⟩ := h
  simp [ht, hc]

theorem logExtends_mono {P Q : Command → Prop} {env env' : Env}
    (hPQ : ∀ c, P c → Q c) (h : logExtends P env env') :
    logExtends Q env env' := by
  obtain ⟨t, ht, hp⟩ := h
  exact ⟨t, ht, fun c hc => hPQ c (hp c hc)⟩

/-! Behaviour of each request primitive: the explicit result/environment when
the reply queue starts with a scripted reply, and the unconditional shape of
the log. -/

theorem sendDescribeStacks_cons {env : Env} {r restQ} (name : String)
    (hq : env.describeStacksQ = r :: restQ) :
    sendDescribeStacks name env =
      (r, { env with describeStacksQ := restQ,
                     log := env.log ++ [.describeStacks name] }) := by
  unfold sendDescribeStacks logCmd
  simp [hq]

theorem sendDescribeStacks_log (name : String) (env : Env) :
    ((sendDescribeStacks name env).2).log
      = env.log ++ [Command.describeStacks name] := by
  unfold sendDescribeStacks logCmd
  cases h : env.describeStacksQ <;> simp [h]

theorem sendDescribeChangeSet_cons {env : Env} {r restQ}
    (stackName changeSetName : String)
    (hq : env.describeChangeSetQ = r :: restQ) :
    sendDescribeChangeSet stackName changeSetName env =
      (r, { env with describeChangeSetQ := restQ,
                     log := env.log
                       ++ [.describeChangeSet stackName changeSetName] }) := by
  unfold sendDescribeChangeSet logCmd
  simp [hq]

theorem sendDescribeChangeSet_log (stackName changeSetName : String)
    (env : Env) :
    ((sendDescribeChangeSet stackName changeSetName env).2).log
      = env.log ++ [Command.describeChangeSet stackName changeSetName] := by
  unfold sendDescribeChangeSet logCmd
  cases h : env.describeChangeSetQ <;> simp [h]

theorem sendCreateStack_cons {env : Env} {r restQ} (params : StackParams)
    (hq : env.createStackQ = r :: restQ) :
    sendCreateStack params env =
      (r, { env with createStackQ := restQ,
                     log := env.log ++ [.createStack params] }) := by
  unfold sendCreateStack logCmd
  simp [hq]

theorem sendCreateStack_log (params : StackParams) (env : Env) :
    ((sendCreateStack params env).2).log
      = env.log ++ [Command.createStack params] := by
  unfold sendCreateStack logCmd
  cases h : env.createStackQ <;> simp [h]

theorem sendUpdateStack_cons {env : Env} {r restQ} (params : StackParams)
    (hq : env.updateStackQ = r :: restQ) :
    sendUpdateStack params env =
      (r, { env with updateStackQ := restQ,
                     log := env.log ++ [.updateStack params] }) := by
  unfold sendUpdateStack logCmd
  simp [hq]

theorem sendUpdateStack_log (params : StackParams) (env : Env) :
    ((sendUpdateStack params env).2).log
      = env.log ++ [Command.updateStack params] := by
  unfold sendUpdateStack logCmd
  cases h : env.updateStackQ <;> simp [h]

theorem sendCreateChangeSet_cons {env : Env} {r restQ}
    (params : CreateCSParams) (hq : env.createChangeSetQ = r :: restQ) :
    sendCreateChangeSet params env =
      (r, { env with createChangeSetQ := restQ,
                     log := env.log ++ [.createChangeSet params] }) := by
  unfold sendCreateChangeSet logCmd
  simp [hq]

theorem sendCreateChangeSet_log (params : CreateCSParams) (env : Env) :
    ((sendCreateChangeSet params env).2).log
      = env.log ++ [Command.createChangeSet params] := by
  unfold sendCreateChangeSet logCmd
  cases h : env.createChangeSetQ <;> simp [h]

theorem sendExecuteChangeSet_log (stackName changeSetName : String)
    (env : Env) :
    ((sendExecuteChangeSet stackName changeSetName env).2).log
      = env.log ++ [Command.executeChangeSet stackName changeSetName] := by
  unfold sendExecuteChangeSet logCmd
  cases h : env.executeChangeSetQ <;> simp [h]

theorem sendDeleteChangeSet_log (stackName changeSetName : String)
    (env : Env) :
    ((sendDeleteChangeSet stackName changeSetName env).2).log
      = env.log ++ [Command.deleteChangeSet stackName changeSetName] := by
  unfold sendDeleteChangeSet logCmd
  cases h : env.deleteChangeSetQ <;> simp [h]

theorem sendDeleteStack_log (stackName : String) (env : Env) :
    ((sendDeleteStack stackName env).2).log
      = env.log ++ [Command.deleteStack stackName] := by
  unfold sendDeleteStack logCmd
  cases h : env.deleteStackQ <;> simp [h]

theorem sendPutS3Object_log (bucket key : String) (env : Env) :
    ((sendPutS3Object bucket key env).2).log
      = env.log ++ [Command.putS3Object bucket key] := by
  unfold sendPutS3Object logCmd
  cases h : env.putS3ObjectQ <;> simp [h]

theorem sendPrompt_log (env : Env) :
    ((sendPrompt env).2).log = env.log ++ [Command.prompt] := by
  unfold sendPrompt logCmd
  cases h : env.promptQ <;> simp [h]

/-- Polling a stack only ever issues `DescribeStacksCommand` requests. -/
theorem pollStack_ext (P : Command → Prop)
    (hP : ∀ n, P (.describeStacks n)) :
    ∀ (fuel : Nat) (name : String) (env : Env),
      logExtends P env ((pollStack fuel name env).2) := by
  intro fuel
  induction fuel with
  | zero => intro name env; exact logExtends_self
  | succ n ih =>
    intro name env
    unfold pollStack
    rcases h : sendDescribeStacks name env with ⟨r, env1⟩
    have hlog := sendDescribeStacks_log name env
    rw [h] at hlog
    have henv1 : logExtends P env env1 :=
      ⟨[.describeStacks name], hlog, by simpa using hP name⟩
    rcases r with msg | data
    · dsimp only
      split
      · exact henv1
      · exact henv1
    · dsimp only
      cases hh : data.Stacks.head? with
      | none => exact henv1
      | some stack =>
        dsimp only
        split
        · exact henv1
        · split
          · obtain ⟨t, ht, hp⟩ := henv1
            exact ⟨t, by simpa using ht, hp⟩
          · exact logExtends_trans henv1 (ih name env1)

/-- Polling a change set only ever issues `DescribeChangeSetCommand`
requests. -/
theorem pollChangeSet_ext (P : Command → Prop)
    (hP : ∀ s c, P (.describeChangeSet s c)) :
    ∀ (fuel : Nat) (stackName changeSetName : String) (env : Env),
      logExtends P env ((pollChangeSet fuel stackName changeSetName env).2) := by
  intro fuel
  induction fuel with
  | zero => intro sn csn env; exact logExtends_self
  | succ n ih =>
    intro sn csn env
    unfold pollChangeSet
    rcases h : sendDescribeChangeSet sn csn env with ⟨r, env1⟩
    have hlog := sendDescribeChangeSet_log sn csn env
    rw [h] at hlog
    have henv1 : logExtends P env env1 :=
      ⟨[.describeChangeSet sn csn], hlog, by simpa using hP sn csn⟩
    rcases r with msg | cs
    · dsimp only
      split
      · exact henv1
      · exact henv1
    · dsimp only
      split
      · exact henv1
      · split
        · cases hr : cs.StatusReason with
          | none => exact henv1
          | some reason =>
            dsimp only
            split
            · exact henv1
            · obtain ⟨t, ht, hp⟩ := henv1
              exact ⟨t, by simpa using ht, hp⟩
        · exact logExtends_trans henv1 (ih sn csn env1)

theorem createStack_ext (P : Command → Prop)
    (hdesc : ∀ n, P (.describeStacks n))
    (hcreate : ∀ p, P (.createStack p))
    (fuel : Nat) (params : StackParams) (env : Env) :
    logExtends P env ((createStack fuel params env).2) := by
  unfold createStack
  rcases h : sendCreateStack { params with DisableRollback := some true } env
    with ⟨r, env1⟩
  have hlog := sendCreateStack_log
    { params with DisableRollback := some true } env
  rw [h] at hlog
  have henv1 : logExtends P env env1 :=
    ⟨[.createStack { params with DisableRollback := some true }], hlog,
      by simpa using hcreate _⟩
  rcases r with msg | u
  · exact henv1
  · exact logExtends_trans henv1 (pollStack_ext P hdesc fuel _ env1)

theorem updateStack_ext (P : Command → Prop)
    (hdesc : ∀ n, P (.describeStacks n))
    (hupdate : ∀ p, P (.updateStack p))
    (fuel : Nat) (params : StackParams) (env : Env) :
    logExtends P env ((updateStack fuel params env).2) := by
  unfold updateStack
  rcases h : sendUpdateStack params env with ⟨r, env1⟩
  have hlog := sendUpdateStack_log params env
  rw [h] at hlog
  have henv1 : logExtends P env env1 :=
    ⟨[.updateStack params], hlog, by simpa using hupdate _⟩
  rcases r with msg | u
  · dsimp only
    split
    · exact logExtends_trans henv1 (pollStack_ext P hdesc fuel _ env1)
    · exact henv1
  · exact logExtends_trans henv1 (pollStack_ext P hdesc fuel _ env1)

theorem createChangeSet_ext (P : Command → Prop)
    (hdesc : ∀ s c, P (.describeChangeSet s c))
    (hcreate : ∀ p, P (.createChangeSet p))
    (fuel : Nat) (params : CreateCSParams) (env : Env) :
    logExtends P env ((createChangeSet fuel params env).2) := by
  unfold createChangeSet
  rcases h : sendCreateChangeSet params env with ⟨r, env1⟩
  have hlog := sendCreateChangeSet_log params env
  rw [h] at hlog
  have henv1 : logExtends P env env1 :=
    ⟨[.createChangeSet params], hlog, by simpa using hcreate _⟩
  rcases r with msg | u
  · exact henv1
  · exact logExtends_trans henv1 (pollChangeSet_ext P hdesc fuel _ _ env1)

theorem executeChangeSet_ext (P : Command → Prop)
    (hdesc : ∀ n, P (.describeStacks n))
    (hexec : ∀ s c, P (.executeChangeSet s c))
    (fuel : Nat) (stackName changeSetName : String) (env : Env) :
    logExtends P env
      ((executeChangeSet fuel stackName changeSetName env).2) := by
  unfold executeChangeSet
  rcases h : sendExecuteChangeSet stackName changeSetName env with ⟨r, env1⟩
  have hlog := sendExecuteChangeSet_log stackName changeSetName env
  rw [h] at hlog
  have henv1 : logExtends P env env1 :=
    ⟨[.executeChangeSet stackName changeSetName], hlog,
      by simpa using hexec _ _⟩
  rcases r with msg | u
  · exact henv1
  · exact logExtends_trans henv1 (pollStack_ext P hdesc fuel _ env1)

theorem deleteChangeSet_ext (P : Command → Prop)
    (hdesc : ∀ s c, P (.describeChangeSet s c))
    (hdel : ∀ s c, P (.deleteChangeSet s c))
    (fuel : Nat) (stackName changeSetName : String) (env : Env) :
    logExtends P env
      ((deleteChangeSet fuel stackName changeSetName env).2) := by
  unfold deleteChangeSet
  rcases h : sendDeleteChangeSet stackName changeSetName env with ⟨r, env1⟩
  have hlog := sendDeleteChangeSet_log stackName changeSetName env
  rw [h] at hlog
  have henv1 : logExtends P env env1 :=
    ⟨[.deleteChangeSet stackName changeSetName], hlog,
      by simpa using hdel _ _⟩
  rcases r with msg | u
  · exact henv1
  · exact logExtends_trans henv1 (pollChangeSet_ext P hdesc fuel _ _ env1)

theorem applyChangeSet_ext (P : Command → Prop)
    (hdescS : ∀ n, P (.describeStacks n))
    (hdescC : ∀ s c, P (.describeChangeSet s c))
    (hcreate : ∀ p, P (.createChangeSet p))
    (hexec : ∀ s c, P (.executeChangeSet s c))
    (fuel : Nat) (params : CreateCSParams) (env : Env) :
    logExtends P env ((applyChangeSet fuel params env).2) := by
  unfold applyChangeSet
  rcases h : createChangeSet fuel params env with ⟨r, env1⟩
  have h1 := createChangeSet_ext P hdescC hcreate fuel params env
  rw [h] at h1
  rcases r with msg | cs
  · exact h1
  · rcases cs with _ | cs
    · exact h1
    · exact logExtends_trans h1
        (executeChangeSet_ext P hdescS hexec fuel _ _ env1)

theorem executeUpdateFn_ext (P : Command → Prop)
    (hdescS : ∀ n, P (.describeStacks n))
    (hdescC : ∀ s c, P (.describeChangeSet s c))
    (hcreate : ∀ p, P (.createChangeSet p))
    (hexec : ∀ s c, P (.executeChangeSet s c))
    (hupdate : ∀ p, P (.updateStack p))
    (fuel : Nat) (params : StackParams) (ct : Bool) (env : Env) :
    logExtends P env ((executeUpdateFn fuel params ct env).2) := by
  unfold executeUpdateFn
  cases ct
  · exact updateStack_ext P hdescS hupdate fuel params env
  · exact applyChangeSet_ext P hdescS hdescC hcreate hexec fuel _ env

/-! ## Claim theorems -/

/-- C3: for an observation of a stack with status `s`, `pollStack` resolves
with the stack description exactly when `s` is `CREATE_COMPLETE` or
`UPDATE_COMPLETE`; it raises `Stack operation failed` recording the full
stack detail exactly when `s` is `ROLLBACK_COMPLETE`, `CREATE_FAILED`,
`UPDATE_FAILED`, `DELETE_FAILED` or `UPDATE_ROLLBACK_COMPLETE`; every other
status triggers another describe/poll cycle. -/
theorem pollStack_observation_classification (fuel : Nat) (name : String)
    (st : StackInfo) (restQ : List (Except String DescribeOut)) (env : Env)
    (hq : env.describeStacksQ = .ok ⟨[st]⟩ :: restQ) :
    pollStack (fuel + 1) name env =
      if st.StackStatus = "CREATE_COMPLETE"
          ∨ st.StackStatus = "UPDATE_COMPLETE" then
        (.ok (some ⟨[st]⟩),
          { env with describeStacksQ := restQ,
                     log := env.log ++ [.describeStacks name] })
      else if st.StackStatus = "ROLLBACK_COMPLETE"
          ∨ st.StackStatus = "CREATE_FAILED"
          ∨ st.StackStatus = "UPDATE_FAILED"
          ∨ st.StackStatus = "DELETE_FAILED"
          ∨ st.StackStatus = "UPDATE_ROLLBACK_COMPLETE" then
        (.error "Stack operation failed",
          { env with describeStacksQ := restQ,
                     log := env.log ++ [.describeStacks name],
                     warned := env.warned ++ [.inl ⟨[st]⟩] })
      else
        pollStack fuel name
          { env with describeStacksQ := restQ,
                     log := env.log ++ [.describeStacks name] } := by
  have hsend := sendDescribeStacks_cons name hq
  simp only [pollStack, hsend, List.head?_cons]

/-- C3 witness: a concrete `UPDATE_COMPLETE` observation resolves with the
stack description. -/
theorem pollStack_observation_classification_witness :
    (pollStack 1 "S"
      { describeStacksQ := [.ok ⟨[⟨"S", "UPDATE_COMPLETE", none⟩]⟩] }).1
      = .ok (some ⟨[⟨"S", "UPDATE_COMPLETE", none⟩]⟩) := by
  have h := pollStack_observation_classification 0 "S"
    ⟨"S", "UPDATE_COMPLETE", none⟩ []
    { describeStacksQ := [.ok ⟨[⟨"S", "UPDATE_COMPLETE", none⟩]⟩] } rfl
  rw [h]
  rfl

/-- C2: for an observation of a change set with status `s` and status reason
`reason`, `pollChangeSet` resolves with the change-set description exactly
when `s` is `CREATE_COMPLETE`, `UPDATE_COMPLETE` or `DELETE_COMPLETE`; when
`s` is `FAILED` it resolves with an absent value if the reason contains
`No updates are to be performed` or `didn't contain changes` and otherwise
raises `Changeset creation failed` recording the change-set detail; every
other status triggers another poll cycle. -/
theorem pollChangeSet_observation_classification (fuel : Nat)
    (sn csn reason : String) (cs : ChangeSet)
    (restQ : List (Except String ChangeSet)) (env : Env)
    (hq : env.describeChangeSetQ = .ok cs :: restQ)
    (hr : cs.StatusReason = some reason) :
    pollChangeSet (fuel + 1) sn csn env =
      if cs.Status = "CREATE_COMPLETE" ∨ cs.Status = "UPDATE_COMPLETE"
          ∨ cs.Status = "DELETE_COMPLETE" then
        (.ok (some cs),
          { env with describeChangeSetQ := restQ,
                     log := env.log ++ [.describeChangeSet sn csn] })
      else if cs.Status = "FAILED" then
        (if containsSubstr reason "No updates are to be performed"
            ∨ containsSubstr reason "didn't contain changes" then
          (.ok none,
            { env with describeChangeSetQ := restQ,
                       log := env.log ++ [.describeChangeSet sn csn] })
        else
          (.error "Changeset creation failed",
            { env with describeChangeSetQ := restQ,
                       log := env.log ++ [.describeChangeSet sn csn],
                       warned := env.warned ++ [.inr cs] }))
      else
        pollChangeSet fuel sn csn
          { env with describeChangeSetQ := restQ,
                     log := env.log ++ [.describeChangeSet sn csn] } := by
  have hsend := sendDescribeChangeSet_cons sn csn hq
  simp only [pollChangeSet, hsend, hr]

/-- C2 witness: a concrete `FAILED` observation whose reason says the diff
was empty resolves successfully with an absent value. -/
theorem pollChangeSet_observation_classification_witness :
    (pollChangeSet 1 "S" "CS"
      { describeChangeSetQ :=
          [.ok ⟨"CS", "S", "FAILED", some "The submitted information didn't contain changes."⟩] }).1
      = .ok none := by
  have h := pollChangeSet_observation_classification 0 "S" "CS"
    "The submitted information didn't contain changes."
    ⟨"CS", "S", "FAILED", some "The submitted information didn't contain changes."⟩ []
    { describeChangeSetQ :=
        [.ok ⟨"CS", "S", "FAILED", some "The submitted information didn't contain changes."⟩] }
    rfl rfl
  rw [h]
  decide

/-- C7: when `UpdateStackCommand` is rejected with an error containing
`No updates are to be performed`, `updateStack` swallows the error and
proceeds to poll the stack, returning the current stable stack state; any
other submission error propagates to the caller as fatal. -/
theorem updateStack_noop_swallowed (fuel : Nat) (params : StackParams)
    (msg : String) (restQ : List (Except String Unit)) (env : Env)
    (hq : env.updateStackQ = .error msg :: restQ) :
    (updateStack (fuel + 1) params env =
      if containsSubstr msg "No updates are to be performed" then
        pollStack (fuel + 1) params.StackName
          { env with updateStackQ := restQ,
                     log := env.log ++ [.updateStack params] }
      else
        (.error msg,
          { env with updateStackQ := restQ,
                     log := env.log ++ [.updateStack params] }))
    ∧ (∀ (st : StackInfo) restS,
        env.describeStacksQ = .ok ⟨[st]⟩ :: restS →
        st.StackStatus = "UPDATE_COMPLETE" →
        containsSubstr msg "No updates are to be performed" = true →
        (updateStack (fuel + 1) params env).1 = .ok (some ⟨[st]⟩)) := by
  have hsend := sendUpdateStack_cons params hq
  constructor
  · simp only [updateStack, hsend]
  · intro st restS hqs hst hcontains
    have hsend2 := @sendDescribeStacks_cons
      { env with updateStackQ := restQ,
                 log := env.log ++ [Command.updateStack params] }
      _ _ params.StackName hqs
    simp only [updateStack, hsend, hcontains, if_true, pollStack, hsend2,
      List.head?_cons, hst]
    simp

/-- C7 witness: a concrete no-op rejection is swallowed and the current
stable stack state is returned. -/
theorem updateStack_noop_swallowed_witness :
    (updateStack 1 { StackName := "S" }
        { updateStackQ := [.error "ValidationError: No updates are to be performed."],
          describeStacksQ := [.ok ⟨[⟨"S", "UPDATE_COMPLETE", none⟩]⟩] }).1
      = .ok (some ⟨[⟨"S", "UPDATE_COMPLETE", none⟩]⟩) :=
  (updateStack_noop_swallowed 0 { StackName := "S" }
    "ValidationError: No updates are to be performed." []
    { updateStackQ := [.error "ValidationError: No updates are to be performed."],
      describeStacksQ := [.ok ⟨[⟨"S", "UPDATE_COMPLETE", none⟩]⟩] }
    rfl).2 ⟨"S", "UPDATE_COMPLETE", none⟩ [] rfl rfl (by decide)

/-- C8: `createStack` always submits the create request with
`DisableRollback = true` (everything it appends beyond that submission is
stack polling), and on a successful submission it continues by polling the
stack and returning the poll's result. -/
theorem createStack_disables_rollback_then_polls (fuel : Nat)
    (params : StackParams) (env : Env) :
    (∃ tail, ((createStack fuel params env).2).log
        = env.log
          ++ [.createStack { params with DisableRollback := some true }]
          ++ tail
      ∧ ∀ c ∈ tail, ∃ n, c = Command.describeStacks n)
    ∧ (∀ restQ, env.createStackQ = .ok () :: restQ →
        createStack fuel params env
          = pollStack fuel params.StackName
              { env with createStackQ := restQ,
                         log := env.log
                           ++ [.createStack
                                { params with DisableRollback := some true }] }) := by
  constructor
  · unfold createStack
    rcases h : sendCreateStack { params with DisableRollback := some true } env
      with ⟨r, env1⟩
    have hlog := sendCreateStack_log { params with DisableRollback := some true } env
    rw [h] at hlog
    replace hlog : env1.log
        = env.log
          ++ [Command.createStack { params with DisableRollback := some true }] :=
      hlog
    rcases r with msg | u
    · exact ⟨[], by simpa using hlog, by simp⟩
    · obtain ⟨t, ht, hp⟩ := pollStack_ext
        (fun c => ∃ n, c = Command.describeStacks n) (fun n => ⟨n, rfl⟩)
        fuel params.StackName env1
      exact ⟨t, by simp [ht, hlog], hp⟩
  · intro restQ hq
    have hsend := sendCreateStack_cons { params with DisableRollback := some true } hq
    simp only [createStack, hsend]

/-- C8 witness: a concrete create run resolves with the polled stack
description. -/
theorem createStack_disables_rollback_then_polls_witness :
    (createStack 1 { StackName := "S" }
        { createStackQ := [.ok ()],
          describeStacksQ := [.ok ⟨[⟨"S", "CREATE_COMPLETE", none⟩]⟩] }).1
      = .ok (some ⟨[⟨"S", "CREATE_COMPLETE", none⟩]⟩) := by
  have h := (createStack_disables_rollback_then_polls 1 { StackName := "S" }
    { createStackQ := [.ok ()],
      describeStacksQ := [.ok ⟨[⟨"S", "CREATE_COMPLETE", none⟩]⟩] }).2 [] rfl
  rw [h]
  decide

/-- C9 counterexample: in a create phase — where not-found is not the
expected success condition — a `does not exist` failure of the describe
probe still resolves the poll successfully with an absent value instead of
propagating as a fatal error. -/
theorem poll_notFound_create_phase_counterexample :
    (createStack 1 { StackName := "S" }
        { createStackQ := [.ok ()],
          describeStacksQ := [.error "Stack with id S does not exist"] }).1
      = .ok none := by decide

/-- C9 (amended): when the describe probe fails with a condition containing
`does not exist`, both `pollStack` and `pollChangeSet` unconditionally
resolve successfully with an empty/absent value — regardless of which phase
is calling — and any other probe error propagates as fatal. -/
theorem poll_notFound_always_resolves_empty (fuel : Nat)
    (name sn csn msg : String) (envS envC : Env)
    (restS : List (Except String DescribeOut))
    (restC : List (Except String ChangeSet))
    (hqS : envS.describeStacksQ = .error msg :: restS)
    (hqC : envC.describeChangeSetQ = .error msg :: restC) :
    (containsSubstr msg "does not exist" = true →
      (pollStack (fuel + 1) name envS).1 = .ok none
      ∧ (pollChangeSet (fuel + 1) sn csn envC).1 = .ok none)
    ∧ (containsSubstr msg "does not exist" = false →
      (pollStack (fuel + 1) name envS).1 = .error msg
      ∧ (pollChangeSet (fuel + 1) sn csn envC).1 = .error msg) := by
  have hS := sendDescribeStacks_cons name hqS
  have hC := sendDescribeChangeSet_cons sn csn hqC
  constructor
  · intro hcond
    constructor
    · simp only [pollStack, hS, hcond, if_true]
    · simp only [pollChangeSet, hC, hcond, if_true]
  · intro hcond
    constructor
    · simp only [pollStack, hS, hcond]
      simp
    · simp only [pollChangeSet, hC, hcond]
      simp

/-- C9 (amended) witness: concrete not-found probes resolve empty in both
pollers. -/
theorem poll_notFound_always_resolves_empty_witness :
    (pollStack 1 "S"
        { describeStacksQ := [.error "Stack with id S does not exist"] }).1
      = .ok none
    ∧ (pollChangeSet 1 "S" "CS"
        { describeChangeSetQ := [.error "ChangeSet CS does not exist"] }).1
      = .ok none :=
  ⟨((poll_notFound_always_resolves_empty 0 "S" "S" "CS"
      "Stack with id S does not exist"
      { describeStacksQ := [.error "Stack with id S does not exist"] }
      { describeChangeSetQ := [.error "Stack with id S does not exist"] }
      [] [] rfl rfl).1 (by decide)).1,
   ((poll_notFound_always_resolves_empty 0 "S" "S" "CS"
      "ChangeSet CS does not exist"
      { describeStacksQ := [.error "ChangeSet CS does not exist"] }
      { describeChangeSetQ := [.error "ChangeSet CS does not exist"] }
      [] [] rfl rfl).1 (by decide)).2⟩

/-- C4: a `deleteStack` call that observes the not-found condition on its
initial describe (as the second of two back-to-back deletes does) resolves
successfully, and the only request it issues is that describe — no bucket
emptying, no `DeleteStackCommand`, no polling. -/
theorem deleteStack_idempotent_notFound (fuel : Nat) (name msg : String)
    (restQ : List (Except String DescribeOut)) (env : Env)
    (hq : env.describeStacksQ = .error msg :: restQ)
    (hmsg : containsSubstr msg "does not exist" = true) :
    deleteStack fuel name env
      = (.ok none,
          { env with describeStacksQ := restQ,
                     log := env.log ++ [.describeStacks name] }) := by
  have hsend := sendDescribeStacks_cons name hq
  simp only [deleteStack, hsend, hmsg, if_true]

/-- C4 witness: deleting the same stack twice — the second call observes
not-found and still succeeds. -/
theorem deleteStack_idempotent_notFound_witness :
    (deleteStack 1 "S"
        { describeStacksQ :=
            [.ok ⟨[⟨"S", "CREATE_COMPLETE", some []⟩]⟩,
             .error "Stack with id S does not exist",
             .error "Stack with id S does not exist"],
          deleteStackQ := [.ok ()] }).1 = .ok none
    ∧ (deleteStack 1 "S"
        (deleteStack 1 "S"
          { describeStacksQ :=
              [.ok ⟨[⟨"S", "CREATE_COMPLETE", some []⟩]⟩,
               .error "Stack with id S does not exist",
               .error "Stack with id S does not exist"],
            deleteStackQ := [.ok ()] }).2).1 = .ok none := by
  constructor
  · decide
  · have h := deleteStack_idempotent_notFound 1 "S"
      "Stack with id S does not exist" []
      (deleteStack 1 "S"
        { describeStacksQ :=
            [.ok ⟨[⟨"S", "CREATE_COMPLETE", some []⟩]⟩,
             .error "Stack with id S does not exist",
             .error "Stack with id S does not exist"],
          deleteStackQ := [.ok ()] }).2
      (by decide) (by decide)
    rw [h]

/-- The log produced by the bucket-emptying loop: exactly one emptier
invocation per output whose key matches `/.*Bucket$/`, in output order. -/
theorem emptyBuckets_log (outs : List Output) (env : Env) :
    (emptyBuckets outs env).log
      = env.log ++ (outs.filter (fun o => bucketKeyTest o.OutputKey)).map
          (fun o => Command.emptyBucket o.OutputValue) := by
  induction outs generalizing env with
  | nil => simp [emptyBuckets]
  | cons o rest ih =>
    have hstep : emptyBuckets (o :: rest) env
        = emptyBuckets rest
            (if bucketKeyTest o.OutputKey then
              logCmd (.emptyBucket o.OutputValue) env
             else env) := rfl
    rw [hstep]
    cases h : bucketKeyTest o.OutputKey
    · simp [h, ih, List.filter_cons]
    · simp [h, ih, List.filter_cons, logCmd]

/-- C5: on a `deleteStack` of an existing stack, every output whose key ends
with `Bucket` (and only those) has its value handed to the bucket emptier,
all emptying precedes the `DeleteStackCommand` submission in the request
order, everything after the delete submission is stack polling, and the
subsequent stack poll treats an eventual not-found as the success
condition. -/
theorem deleteStack_empties_buckets_before_delete (fuel : Nat)
    (name : String) (st : StackInfo) (outs : List Output)
    (restQ : List (Except String DescribeOut)) (env : Env)
    (hq : env.describeStacksQ = .ok ⟨[st]⟩ :: restQ)
    (houts : st.Outputs = some outs) :
    (∃ tail, ((deleteStack fuel name env).2).log
        = env.log ++ [.describeStacks name]
          ++ (outs.filter (fun o => bucketKeyTest o.OutputKey)).map
              (fun o => Command.emptyBucket o.OutputValue)
          ++ [.deleteStack name] ++ tail
      ∧ ∀ c ∈ tail, ∃ n, c = Command.describeStacks n)
    ∧ (∀ (envP : Env) msg restS,
        envP.describeStacksQ = .error msg :: restS →
        containsSubstr msg "does not exist" = true →
        (pollStack (fuel + 1) name envP).1 = .ok none) := by
  constructor
  · have hsend := sendDescribeStacks_cons name hq
    unfold deleteStack
    rw [hsend]
    simp only [List.head?_cons, houts, Option.getD_some]
    rcases hds : sendDeleteStack name
        (emptyBuckets outs
          { env with describeStacksQ := restQ,
                     log := env.log ++ [.describeStacks name] })
      with ⟨r2, env3⟩
    have hlog3 := sendDeleteStack_log name
      (emptyBuckets outs
        { env with describeStacksQ := restQ,
                   log := env.log ++ [.describeStacks name] })
    rw [hds] at hlog3
    replace hlog3 : env3.log
        = (emptyBuckets outs
            { env with describeStacksQ := restQ,
                       log := env.log ++ [.describeStacks name] }).log
          ++ [Command.deleteStack name] := hlog3
    rw [emptyBuckets_log] at hlog3
    rcases r2 with msg2 | u2
    · refine ⟨[], ?_, by simp⟩
      simpa [List.append_assoc] using hlog3
    · obtain ⟨t, ht, hp⟩ := pollStack_ext
        (fun c => ∃ n, c = Command.describeStacks n) (fun n => ⟨n, rfl⟩)
        fuel name env3
      refine ⟨t, ?_, hp⟩
      simp [ht, hlog3, List.append_assoc]
  · intro envP msg restS hqs hmsg
    have hsend := sendDescribeStacks_cons name hqs
    simp only [pollStack, hsend, hmsg, if_true]

/-- C5 witness: a stack with outputs `DataBucket` and `Other` — only the
bucket output is emptied, before the delete submission. -/
theorem deleteStack_empties_buckets_before_delete_witness :
    ∃ tail, ((deleteStack 1 "S"
        { describeStacksQ :=
            [.ok ⟨[⟨"S", "CREATE_COMPLETE",
              some [⟨"DataBucket", "bname"⟩, ⟨"Other", "x"⟩]⟩]⟩,
             .error "Stack with id S does not exist"],
          deleteStackQ := [.ok ()] }).2).log
        = [] ++ [.describeStacks "S"]
          ++ (([⟨"DataBucket", "bname"⟩, ⟨"Other", "x"⟩] : List Output).filter
                (fun o => bucketKeyTest o.OutputKey)).map
              (fun o => Command.emptyBucket o.OutputValue)
          ++ [.deleteStack "S"] ++ tail
      ∧ ∀ c ∈ tail, ∃ n, c = Command.describeStacks n :=
  (deleteStack_empties_buckets_before_delete 1 "S"
    ⟨"S", "CREATE_COMPLETE", some [⟨"DataBucket", "bname"⟩, ⟨"Other", "x"⟩]⟩
    [⟨"DataBucket", "bname"⟩, ⟨"Other", "x"⟩]
    [.error "Stack with id S does not exist"]
    { describeStacksQ :=
        [.ok ⟨[⟨"S", "CREATE_COMPLETE",
          some [⟨"DataBucket", "bname"⟩, ⟨"Other", "x"⟩]⟩]⟩,
         .error "Stack with id S does not exist"],
      deleteStackQ := [.ok ()] } rfl rfl).1

/-- Log shape of `createStack`: the create submission (with rollback forced
off… i.e. `DisableRollback := true`) comes first; everything after is stack
polling. -/
theorem createStack_log_shape (fuel : Nat) (params : StackParams)
    (env : Env) :
    ∃ tail, ((createStack fuel params env).2).log
      = env.log
        ++ [Command.createStack { params with DisableRollback := some true }]
        ++ tail
      ∧ ∀ c ∈ tail, ∃ n, c = Command.describeStacks n := by
  unfold createStack
  rcases h : sendCreateStack { params with DisableRollback := some true } env
    with ⟨r, env1⟩
  have hlog := sendCreateStack_log { params with DisableRollback := some true } env
  rw [h] at hlog
  replace hlog : env1.log
      = env.log
        ++ [Command.createStack { params with DisableRollback := some true }] :=
    hlog
  rcases r with msg | u
  · exact ⟨[], by simpa using hlog, by simp⟩
  · obtain ⟨t, ht, hp⟩ := pollStack_ext
      (fun c => ∃ n, c = Command.describeStacks n) (fun n => ⟨n, rfl⟩)
      fuel params.StackName env1
    exact ⟨t, by simp [ht, hlog], hp⟩

/-- Log shape of `applyChangeSet`: the change-set creation submission comes
first. -/
theorem applyChangeSet_log_shape (fuel : Nat) (params : CreateCSParams)
    (env : Env) :
    ∃ tail, ((applyChangeSet fuel params env).2).log
      = env.log ++ [Command.createChangeSet params] ++ tail := by
  unfold applyChangeSet createChangeSet
  rcases h : sendCreateChangeSet params env with ⟨r, env1⟩
  have hlog := sendCreateChangeSet_log params env
  rw [h] at hlog
  replace hlog : env1.log = env.log ++ [Command.createChangeSet params] := hlog
  rcases r with msg | u
  · exact ⟨[], by simpa using hlog⟩
  · obtain ⟨t1, ht1, _⟩ := pollChangeSet_ext (fun _ => True) (fun _ _ => trivial)
      fuel params.base.StackName params.ChangeSetName env1
    rcases hpoll : pollChangeSet fuel params.base.StackName params.ChangeSetName env1
      with ⟨rp, env2⟩
    rw [hpoll] at ht1
    replace ht1 : env2.log = env1.log ++ t1 := ht1
    rcases rp with msg | ocs
    · exact ⟨t1, by simp [hpoll, ht1, hlog]⟩
    · rcases ocs with _ | cs
      · exact ⟨t1, by simp [hpoll, ht1, hlog]⟩
      · obtain ⟨t2, ht2, _⟩ := executeChangeSet_ext (fun _ => True)
          (fun _ => trivial) (fun _ _ => trivial)
          fuel cs.StackName cs.ChangeSetName env2
        exact ⟨t1 ++ t2, by simp [hpoll, ht2, ht1, hlog]⟩

/-- When the created change set polls to a present terminal value,
`applyChangeSet` continues by executing exactly that change set. -/
theorem applyChangeSet_executes (fuel : Nat) (params : CreateCSParams)
    (cs : ChangeSet) (env env1 : Env)
    (hcs : createChangeSet fuel params env = (.ok (some cs), env1)) :
    applyChangeSet fuel params env
      = executeChangeSet fuel cs.StackName cs.ChangeSetName env1 := by
  unfold applyChangeSet
  rw [hcs]

/-- When the created change set polls to the empty-diff outcome,
`applyChangeSet` stops: it neither executes nor deletes the change set. -/
theorem applyChangeSet_noop_abandons (fuel : Nat) (params : CreateCSParams)
    (env env1 : Env)
    (hcs : createChangeSet fuel params env = (.ok none, env1)) :
    applyChangeSet fuel params env = (.ok none, env1) := by
  unfold applyChangeSet
  rw [hcs]

/-- C10: any error from the initial `DescribeStacksCommand` probe of
`upsertStack` — not only a not-found condition — routes the call to the
create path: immediately after the failed describe the call submits stack
creation (a direct `CreateStackCommand` when `containsTransforms` is false,
a CREATE-type change set when it is true) instead of propagating the
describe error. -/
theorem upsert_describe_error_routes_to_create (fuel : Nat)
    (name script : String) (parameters : List (String × String))
    (optionsArg : UpsertArg) (env : Env) (msg : String) (ct : Bool)
    (restQ : List (Except String DescribeOut)) (p : StackParams)
    (hs3 : (normalizeOptions optionsArg).s3Bucket = none)
    (hct : computeContainsTransforms env script (normalizeOptions optionsArg)
      = .ok ct)
    (hbuild : buildUpsertParams env name script parameters = .ok p)
    (hq : env.describeStacksQ = .error msg :: restQ) :
    (ct = false → ∃ pc tail,
        ((upsertStack fuel name script parameters optionsArg env).2).log
          = env.log ++ [.describeStacks name, .createStack pc] ++ tail
        ∧ pc.DisableRollback = some true)
    ∧ (ct = true → ∃ q tail,
        ((upsertStack fuel name script parameters optionsArg env).2).log
          = env.log ++ [.describeStacks name, .createChangeSet q] ++ tail
        ∧ q.ChangeSetType = some "CREATE") := by
  have hsend := sendDescribeStacks_cons name hq
  have hgo : upsertStack fuel name script parameters optionsArg env
      = upsertStackGo fuel name script parameters
          ((normalizeOptions optionsArg).review.getD false) ct env := by
    simp only [upsertStack, hct, hs3]
  constructor
  · intro hctf
    subst hctf
    obtain ⟨t, ht, _⟩ := createStack_log_shape fuel p
      { env with describeStacksQ := restQ,
                 log := env.log ++ [.describeStacks name] }
    refine ⟨{ p with DisableRollback := some true }, t, ?_, rfl⟩
    rw [hgo]
    unfold upsertStackGo
    rw [hbuild, hsend]
    simpa [List.append_assoc] using ht
  · intro hctt
    subst hctt
    obtain ⟨t, ht⟩ := applyChangeSet_log_shape fuel
      { base := { p with DisableRollback := none },
        ChangeSetName := generateChangeSetName env.nowSec,
        ChangeSetType := some "CREATE" }
      { env with describeStacksQ := restQ,
                 log := env.log ++ [.describeStacks name] }
    refine ⟨{ base := { p with DisableRollback := none },
              ChangeSetName := generateChangeSetName env.nowSec,
              ChangeSetType := some "CREATE" }, t, ?_, rfl⟩
    rw [hgo]
    unfold upsertStackGo
    rw [hbuild, hsend]
    simpa [List.append_assoc] using ht

/-- C10 witness: a transient (non-not-found) describe error against an
existing stack still leads to a `CreateStackCommand` submission. -/
theorem upsert_describe_error_routes_to_create_witness :
    ∃ pc tail,
      ((upsertStack 1 "S" "/p/t.yaml" [] (.objArg {})
          { describeStacksQ :=
              [.error "Rate exceeded",
               .ok ⟨[⟨"S", "CREATE_COMPLETE", none⟩]⟩],
            createStackQ := [.ok ()],
            files := [("/p/t.yaml", "Resources: {}")] }).2).log
        = ([] : List Command)
          ++ [.describeStacks "S", .createStack pc] ++ tail
      ∧ pc.DisableRollback = some true :=
  (upsert_describe_error_routes_to_create 1 "S" "/p/t.yaml" [] (.objArg {})
    { describeStacksQ :=
        [.error "Rate exceeded", .ok ⟨[⟨"S", "CREATE_COMPLETE", none⟩]⟩],
      createStackQ := [.ok ()],
      files := [("/p/t.yaml", "Resources: {}")] }
    "Rate exceeded" false [.ok ⟨[⟨"S", "CREATE_COMPLETE", none⟩]⟩]
    { StackName := "S",
      Capabilities :=
        ["CAPABILITY_IAM", "CAPABILITY_NAMED_IAM", "CAPABILITY_AUTO_EXPAND"],
      Parameters := [],
      TemplateBody := some "Resources: {}" }
    rfl (by decide) (by decide) rfl).1 rfl

/-- Direct stack mutations: `CreateStackCommand` / `UpdateStackCommand`. -/
def isDirectMutate : Command → Bool
  | .createStack _ => true
  | .updateStack _ => true
  | _ => false

/-- Log shape of `executeChangeSet`: the execute submission comes first. -/
theorem executeChangeSet_log_shape (fuel : Nat)
    (stackName changeSetName : String) (env : Env) :
    ∃ tail, ((executeChangeSet fuel stackName changeSetName env).2).log
      = env.log ++ [Command.executeChangeSet stackName changeSetName]
        ++ tail := by
  unfold executeChangeSet
  rcases h : sendExecuteChangeSet stackName changeSetName env with ⟨r, env1⟩
  have hlog := sendExecuteChangeSet_log stackName changeSetName env
  rw [h] at hlog
  replace hlog : env1.log
      = env.log ++ [Command.executeChangeSet stackName changeSetName] := hlog
  rcases r with msg | u
  · exact ⟨[], by simpa using hlog⟩
  · obtain ⟨t, ht, _⟩ := pollStack_ext (fun _ => True) (fun _ => trivial)
      fuel stackName env1
    exact ⟨t, by simp [ht, hlog]⟩

/-- With a transform-bearing template, the main upsert body only ever issues
describes, change-set requests and the prompt — never a direct
`CreateStackCommand`/`UpdateStackCommand`. -/
theorem upsertStackGo_transforms_no_direct_mutate (fuel : Nat)
    (name script : String) (parameters : List (String × String))
    (review : Bool) (env : Env) :
    logExtends (fun c => isDirectMutate c = false) env
      ((upsertStackGo fuel name script parameters review true env).2) := by
  have hPdS : ∀ n, (fun c => isDirectMutate c = false)
      (Command.describeStacks n) := fun _ => rfl
  have hPdC : ∀ s c, (fun c => isDirectMutate c = false)
      (Command.describeChangeSet s c) := fun _ _ => rfl
  have hPcc : ∀ p, (fun c => isDirectMutate c = false)
      (Command.createChangeSet p) := fun _ => rfl
  have hPec : ∀ s c, (fun c => isDirectMutate c = false)
      (Command.executeChangeSet s c) := fun _ _ => rfl
  have hPdl : ∀ s c, (fun c => isDirectMutate c = false)
      (Command.deleteChangeSet s c) := fun _ _ => rfl
  unfold upsertStackGo
  rcases hb : buildUpsertParams env name script parameters with msg | p
  · try simp only [hb]
    exact logExtends_self
  · try simp only [hb]
    rcases hd : sendDescribeStacks name env with ⟨r, env1⟩
    try simp only [hd]
    have hlog := sendDescribeStacks_log name env
    rw [hd] at hlog
    replace hlog : env1.log = env.log ++ [Command.describeStacks name] := hlog
    have henv1 : logExtends (fun c => isDirectMutate c = false) env env1 :=
      ⟨[Command.describeStacks name], hlog, by simp [isDirectMutate]⟩
    rcases r with msg | d
    · exact logExtends_trans henv1
        (applyChangeSet_ext _ hPdS hPdC hPcc hPec fuel _ env1)
    · cases review
      · exact logExtends_trans henv1
          (applyChangeSet_ext _ hPdS hPdC hPcc hPec fuel _ env1)
      · simp only [if_true]
        rcases hcs : createChangeSet fuel
            { base := p,
              ChangeSetName := "cf-utils-" ++ p.StackName ++ "-preview" } env1
          with ⟨rc, env2⟩
        try simp only [hcs]
        have h2 := createChangeSet_ext (fun c => isDirectMutate c = false)
          hPdC hPcc fuel
          { base := p,
            ChangeSetName := "cf-utils-" ++ p.StackName ++ "-preview" } env1
        rw [hcs] at h2
        replace h2 : logExtends (fun c => isDirectMutate c = false) env1 env2 := h2
        rcases rc with msg | ocs
        · exact logExtends_trans henv1 h2
        · rcases ocs with _ | cs
          · exact logExtends_trans henv1 (logExtends_trans h2
              (pollStack_ext _ hPdS fuel name env2))
          · rcases hp : sendPrompt env2 with ⟨rp, env3⟩
            try simp only [hp]
            have hlog3 := sendPrompt_log env2
            rw [hp] at hlog3
            replace hlog3 : env3.log = env2.log ++ [Command.prompt] := hlog3
            have h3 : logExtends (fun c => isDirectMutate c = false) env2 env3 :=
              ⟨[Command.prompt], hlog3, by simp [isDirectMutate]⟩
            rcases rp with msg | b
            · exact logExtends_trans henv1 (logExtends_trans h2 h3)
            · rcases hdc : deleteChangeSet fuel p.StackName
                  ("cf-utils-" ++ p.StackName ++ "-preview") env3
                with ⟨rd, env4⟩
              try simp only [hdc]
              have h4 := deleteChangeSet_ext (fun c => isDirectMutate c = false)
                hPdC hPdl fuel p.StackName
                ("cf-utils-" ++ p.StackName ++ "-preview") env3
              rw [hdc] at h4
              replace h4 : logExtends (fun c => isDirectMutate c = false)
                  env3 env4 := h4
              rcases rd with msg | _
              · exact logExtends_trans henv1 (logExtends_trans h2
                  (logExtends_trans h3 h4))
              · cases b
                · exact logExtends_trans henv1 (logExtends_trans h2
                    (logExtends_trans h3 h4))
                · exact logExtends_trans henv1 (logExtends_trans h2
                    (logExtends_trans h3 (logExtends_trans h4
                      (applyChangeSet_ext _ hPdS hPdC hPcc hPec fuel _ env4))))

/-- C1: when the template body contains the serverless-transform marker and
the options do not explicitly override `containsTransforms`, the stack
mutation goes through the change-set path: (a) no direct `CreateStackCommand`
or `UpdateStackCommand` is ever issued on any execution; (b) when the stack
does not exist (describe probe fails) the submitted change set has
`ChangeSetType = CREATE`; (c) when the stack exists (no review) it has
`ChangeSetType = UPDATE`; (d) a change set that polls to a present terminal
value is followed by an `ExecuteChangeSetCommand` for it. -/
theorem upsert_transforms_always_changeset (fuel : Nat)
    (name script : String) (parameters : List (String × String))
    (optionsArg : UpsertArg) (env : Env) (content : String)
    (hover : (normalizeOptions optionsArg).containsTransforms = none)
    (hfile : readFile env script = some content)
    (hmarker : transformTest content = true) :
    (logExtends (fun c => isDirectMutate c = false) env
      ((upsertStack fuel name script parameters optionsArg env).2))
    ∧ (∀ msg restQ p,
        (normalizeOptions optionsArg).s3Bucket = none →
        env.describeStacksQ = .error msg :: restQ →
        buildUpsertParams env name script parameters = .ok p →
        ∃ q tail,
          ((upsertStack fuel name script parameters optionsArg env).2).log
            = env.log ++ [.describeStacks name, .createChangeSet q] ++ tail
          ∧ q.ChangeSetType = some "CREATE")
    ∧ (∀ d restQ p,
        (normalizeOptions optionsArg).s3Bucket = none →
        (normalizeOptions optionsArg).review.getD false = false →
        env.describeStacksQ = .ok d :: restQ →
        buildUpsertParams env name script parameters = .ok p →
        ∃ q tail,
          ((upsertStack fuel name script parameters optionsArg env).2).log
            = env.log ++ [.describeStacks name, .createChangeSet q] ++ tail
          ∧ q.ChangeSetType = some "UPDATE")
    ∧ (∀ (fuel2 : Nat) (prm : CreateCSParams) (cs : ChangeSet)
          (envA envB : Env),
        createChangeSet fuel2 prm envA = (.ok (some cs), envB) →
        ∃ tail, ((applyChangeSet fuel2 prm envA).2).log
          = envB.log ++ [.executeChangeSet cs.StackName cs.ChangeSetName]
            ++ tail) := by
  have hct : computeContainsTransforms env script (normalizeOptions optionsArg)
      = .ok true := by
    simp [computeContainsTransforms, hover, hfile, hmarker]
  refine ⟨?_, ?_, ?_, ?_⟩
  · unfold upsertStack
    simp only [hct]
    rcases hs3 : (normalizeOptions optionsArg).s3Bucket with _ | bucket
    · exact upsertStackGo_transforms_no_direct_mutate fuel name script
        parameters _ env
    · rcases hput : sendPutS3Object bucket
          (((normalizeOptions optionsArg).s3Prefix.getD "undefined") ++ script)
          env with ⟨ru, env1⟩
      try simp only [hput]
      have hlog := sendPutS3Object_log bucket
        (((normalizeOptions optionsArg).s3Prefix.getD "undefined") ++ script) env
      rw [hput] at hlog
      replace hlog : env1.log
          = env.log
            ++ [Command.putS3Object bucket
                 (((normalizeOptions optionsArg).s3Prefix.getD "undefined")
                   ++ script)] := hlog
      have henv1 : logExtends (fun c => isDirectMutate c = false) env env1 :=
        ⟨[Command.putS3Object bucket
            (((normalizeOptions optionsArg).s3Prefix.getD "undefined")
              ++ script)], hlog, by simp [isDirectMutate]⟩
      rcases ru with msg | u
      · exact henv1
      · exact logExtends_trans henv1
          (upsertStackGo_transforms_no_direct_mutate fuel name _ parameters
            _ env1)
  · intro msg restQ p hs3 hq hbuild
    have hsend := sendDescribeStacks_cons name hq
    obtain ⟨t, ht⟩ := applyChangeSet_log_shape fuel
      { base := { p with DisableRollback := none },
        ChangeSetName := generateChangeSetName env.nowSec,
        ChangeSetType := some "CREATE" }
      { env with describeStacksQ := restQ,
                 log := env.log ++ [.describeStacks name] }
    refine ⟨{ base := { p with DisableRollback := none },
              ChangeSetName := generateChangeSetName env.nowSec,
              ChangeSetType := some "CREATE" }, t, ?_, rfl⟩
    simp only [upsertStack, hct, hs3]
    unfold upsertStackGo
    rw [hbuild, hsend]
    simpa [List.append_assoc] using ht
  · intro d restQ p hs3 hreview hq hbuild
    have hsend := sendDescribeStacks_cons name hq
    obtain ⟨t, ht⟩ := applyChangeSet_log_shape fuel
      { base := { p with DisableRollback := none },
        ChangeSetName := generateChangeSetName env.nowSec,
        ChangeSetType := some "UPDATE" }
      { env with describeStacksQ := restQ,
                 log := env.log ++ [.describeStacks name] }
    refine ⟨{ base := { p with DisableRollback := none },
              ChangeSetName := generateChangeSetName env.nowSec,
              ChangeSetType := some "UPDATE" }, t, ?_, rfl⟩
    simp only [upsertStack, hct, hs3]
    unfold upsertStackGo
    rw [hbuild, hsend, hreview]
    simpa [executeUpdateFn, List.append_assoc] using ht
  · intro fuel2 prm cs envA envB hcs
    have hex := applyChangeSet_executes fuel2 prm cs envA envB hcs
    obtain ⟨t, ht⟩ := executeChangeSet_log_shape fuel2 cs.StackName
      cs.ChangeSetName envB
    exact ⟨t, by simp [hex, ht]⟩

/-- C1 witness: a transform-bearing template against a non-existent stack
yields a CREATE-type change set. -/
theorem upsert_transforms_always_changeset_witness :
    ∃ q tail,
      ((upsertStack 1 "S" "/p/t.yaml" [] (.objArg {})
          { describeStacksQ := [.error "Stack with id S does not exist"],
            createChangeSetQ := [.ok ()],
            describeChangeSetQ := [.ok ⟨"csn", "S", "CREATE_COMPLETE", none⟩],
            executeChangeSetQ := [.ok ()],
            files :=
              [("/p/t.yaml", "Transform: \"AWS::Serverless-2016-10-31\"")] }).2).log
        = ([] : List Command)
          ++ [.describeStacks "S", .createChangeSet q] ++ tail
      ∧ q.ChangeSetType = some "CREATE" :=
  (upsert_transforms_always_changeset 1 "S" "/p/t.yaml" [] (.objArg {})
    { describeStacksQ := [.error "Stack with id S does not exist"],
      createChangeSetQ := [.ok ()],
      describeChangeSetQ := [.ok ⟨"csn", "S", "CREATE_COMPLETE", none⟩],
      executeChangeSetQ := [.ok ()],
      files := [("/p/t.yaml", "Transform: \"AWS::Serverless-2016-10-31\"")] }
    "Transform: \"AWS::Serverless-2016-10-31\"" rfl (by decide)
    (by decide)).2.1 "Stack with id S does not exist"
    [] { StackName := "S",
         Capabilities :=
           ["CAPABILITY_IAM", "CAPABILITY_NAMED_IAM", "CAPABILITY_AUTO_EXPAND"],
         Parameters := [],
         TemplateBody := some "Transform: \"AWS::Serverless-2016-10-31\"" }
    rfl rfl (by decide)

/-- C6 counterexample: a change set created by the orchestrator whose poll
ends in the empty-diff `FAILED` outcome is neither executed nor deleted —
the run issues a `CreateChangeSetCommand` but no `ExecuteChangeSetCommand`
and no `DeleteChangeSetCommand`, so the execute-or-delete ownership claimed
"with no exceptions (including the no-op/empty-diff outcome)" fails. -/
theorem changeset_ownership_counterexample :
    (((upsertStack 2 "S" "/p/t.yaml" [] (.objArg {})
        { files := [("/p/t.yaml", "Transform: \"AWS::Serverless\"")],
          describeStacksQ := [.ok ⟨[⟨"S", "CREATE_COMPLETE", none⟩]⟩],
          createChangeSetQ := [.ok ()],
          describeChangeSetQ :=
            [.ok ⟨"csn", "S", "FAILED",
              some "The submitted information didn't contain changes."⟩] }).2).log.any
      (fun c => match c with
        | .createChangeSet _ => true
        | _ => false) = true)
    ∧ (((upsertStack 2 "S" "/p/t.yaml" [] (.objArg {})
        { files := [("/p/t.yaml", "Transform: \"AWS::Serverless\"")],
          describeStacksQ := [.ok ⟨[⟨"S", "CREATE_COMPLETE", none⟩]⟩],
          createChangeSetQ := [.ok ()],
          describeChangeSetQ :=
            [.ok ⟨"csn", "S", "FAILED",
              some "The submitted information didn't contain changes."⟩] }).2).log.all
      (fun c => match c with
        | .executeChangeSet _ _ => false
        | .deleteChangeSet _ _ => false
        | _ => true) = true) := by
  constructor
  · decide
  · decide

/-- C6 (amended): the review path deletes the preview change set
(`cf-utils-<stackName>-preview`) after the reviewer's decision regardless of
whether the reviewer approves or rejects, and on every path a change set
whose poll reaches a present terminal value is executed; but a change set
whose creation ends in the empty-diff `FAILED` outcome is neither executed
nor deleted — the orchestrator stops at the creation result, which is the
one exception to execute-or-delete ownership. -/
theorem changeset_ownership_amended (b : Bool) :
    (Command.deleteChangeSet "S" "cf-utils-S-preview"
      ∈ ((upsertStack 2 "S" "/p/t.yaml" [] (.objArg { review := some true })
          { describeStacksQ :=
              [.ok ⟨[⟨"S", "CREATE_COMPLETE", none⟩]⟩,
               .ok ⟨[⟨"S", "UPDATE_COMPLETE", none⟩]⟩],
            createChangeSetQ := [.ok ()],
            describeChangeSetQ :=
              [.ok ⟨"cf-utils-S-preview", "S", "CREATE_COMPLETE", none⟩,
               .ok ⟨"cf-utils-S-preview", "S", "DELETE_COMPLETE", none⟩],
            deleteChangeSetQ := [.ok ()],
            updateStackQ := [.ok ()],
            promptQ := [b],
            files := [("/p/t.yaml", "Resources: {}")] }).2).log)
    ∧ (∀ (fuel2 : Nat) (prm : CreateCSParams) (cs2 : ChangeSet)
          (envA envB : Env),
        createChangeSet fuel2 prm envA = (.ok (some cs2), envB) →
        ∃ tail, ((applyChangeSet fuel2 prm envA).2).log
          = envB.log ++ [.executeChangeSet cs2.StackName cs2.ChangeSetName]
            ++ tail)
    ∧ (∀ (fuel2 : Nat) (prm : CreateCSParams) (envA envB : Env),
        createChangeSet fuel2 prm envA = (.ok none, envB) →
        applyChangeSet fuel2 prm envA = (.ok none, envB)) := by
  refine ⟨?_, ?_, ?_⟩
  · cases b
    · decide
    · decide
  · intro fuel2 prm cs2 envA envB hcs
    have hex := applyChangeSet_executes fuel2 prm cs2 envA envB hcs
    obtain ⟨t, ht⟩ := executeChangeSet_log_shape fuel2 cs2.StackName
      cs2.ChangeSetName envB
    exact ⟨t, by simp [hex, ht]⟩
  · intro fuel2 prm envA envB hcs
    exact applyChangeSet_noop_abandons fuel2 prm envA envB hcs

/-- C6 (amended) witness: the rejection path still deletes the preview
change set, and a concrete successfully-polled change set is executed. -/
theorem changeset_ownership_amended_witness :
    (Command.deleteChangeSet "S" "cf-utils-S-preview"
      ∈ ((upsertStack 2 "S" "/p/t.yaml" [] (.objArg { review := some true })
          { describeStacksQ :=
              [.ok ⟨[⟨"S", "CREATE_COMPLETE", none⟩]⟩,
               .ok ⟨[⟨"S", "UPDATE_COMPLETE", none⟩]⟩],
            createChangeSetQ := [.ok ()],
            describeChangeSetQ :=
              [.ok ⟨"cf-utils-S-preview", "S", "CREATE_COMPLETE", none⟩,
               .ok ⟨"cf-utils-S-preview", "S", "DELETE_COMPLETE", none⟩],
            deleteChangeSetQ := [.ok ()],
            updateStackQ := [.ok ()],
            promptQ := [false],
            files := [("/p/t.yaml", "Resources: {}")] }).2).log)
    ∧ (∃ tail, ((applyChangeSet 1
          { base := { StackName := "S" }, ChangeSetName := "csn" }
          { createChangeSetQ := [.ok ()],
            describeChangeSetQ := [.ok ⟨"csn", "S", "CREATE_COMPLETE", none⟩],
            executeChangeSetQ := [.ok ()],
            describeStacksQ := [.ok ⟨[⟨"S", "UPDATE_COMPLETE", none⟩]⟩] }).2).log
        = [Command.createChangeSet
            { base := { StackName := "S" }, ChangeSetName := "csn" },
           Command.describeChangeSet "S" "csn"]
          ++ [.executeChangeSet "S" "csn"] ++ tail) :=
  ⟨(changeset_ownership_amended false).1,
   (changeset_ownership_amended false).2.1 1
     { base := { StackName := "S" }, ChangeSetName := "csn" }
     ⟨"csn", "S", "CREATE_COMPLETE", none⟩
     { createChangeSetQ := [.ok ()],
       describeChangeSetQ := [.ok ⟨"csn", "S", "CREATE_COMPLETE", none⟩],
       executeChangeSetQ := [.ok ()],
       describeStacksQ := [.ok ⟨[⟨"S", "UPDATE_COMPLETE", none⟩]⟩] }
     { createChangeSetQ := [],
       describeChangeSetQ := [],
       executeChangeSetQ := [.ok ()],
       describeStacksQ := [.ok ⟨[⟨"S", "UPDATE_COMPLETE", none⟩]⟩],
       log := [Command.createChangeSet
                { base := { StackName := "S" }, ChangeSetName := "csn" },
               Command.describeChangeSet "S" "csn"] }
     (by decide)⟩

end CfUtils
